import Mathlib

/-
  Verification of the offline-first persistence and synchronization engine of
  app-controlpreventivo, shallowly embedded from the TypeScript source
  (src/services/storageService.ts, src/unnamed/part_004, src/unnamed/part_002,
  types in src/unnamed/part_001).

  Stateful browser APIs are embedded by explicit state passing: the
  localStorage collections become list-valued parameters/results, dispatched
  DOM events become an explicit event list, and fallible external operations
  (localStorage.setItem under quota pressure, Supabase calls) become oracle
  parameters describing the outcome of each call.
-/

namespace ControlPreventivo

/-! ## Data model (src/unnamed/part_001, `types.ts`) -/

structure InspectionPoint where
  id : String
  name : String
  question : String
  requiresPhoto : Bool
  photoInstruction : Option String
  deriving Repr, DecidableEq

structure Area where
  id : String
  name : String
  points : List InspectionPoint
  deriving Repr, DecidableEq

inductive Periodicity
  | mensual | trimestral | cuatrimestral | anual
  deriving Repr, DecidableEq

structure Site where
  id : String
  name : String
  areas : List Area
  synced : Option Bool
  periodicity : Option Periodicity
  contactPhone : Option String
  lastReminderSent : Option Nat
  deriving Repr, DecidableEq

structure Answer where
  pointId : String
  pointName : String
  question : String
  areaName : String
  isOk : Bool
  photoUrl : Option String
  comments : Option String
  timestamp : Nat
  deriving Repr, DecidableEq

inductive LogStatus
  | completed | draft
  deriving Repr, DecidableEq

structure InspectionLog where
  id : String
  siteId : String
  siteName : String
  date : String
  inspectorName : String
  inspectorDni : String
  inspectorEmail : String
  answers : List Answer
  status : LogStatus
  synced : Option Bool
  pdfUrl : Option String
  deriving Repr, DecidableEq

structure InspectorInfo where
  name : String
  dni : String
  email : String
  deriving Repr, DecidableEq

structure InspectionDraft where
  siteId : String
  currentStepIndex : Int
  answers : List (String × Answer)
  inspectorInfo : InspectorInfo
  lastModified : Nat
  deriving Repr, DecidableEq

/-! ## JavaScript-semantics helpers -/

/-- Truthiness of an optional boolean field (`synced?: boolean`): `undefined`
and `false` are both falsy, matching checks such as `!i.synced`. -/
def truthy : Option Bool → Bool
  | some b => b
  | none => false

/-- Truthiness of an optional string field: `undefined` and `""` are falsy,
matching checks such as `!inspection.pdfUrl` and `row.pdf_url || ...`. -/
def strTruthy : Option String → Bool
  | some s => if s = "" then false else true
  | none => false

/-- The JavaScript `a || b` on optional strings: keep `a` when truthy,
otherwise fall back to `b`. -/
def jsOrStr (a b : Option String) : Option String :=
  if strTruthy a then a else b

/-- First-some choice on options (used to state merge precedence). -/
def optOr {α : Type} : Option α → Option α → Option α
  | some x, _ => some x
  | none, b => b

/-- A thrown DOM/JS error, as observed by the quota handler
(`e.name === 'QuotaExceededError' || e.code === 22`). -/
structure JsError where
  name : String
  code : Option Nat
  deriving Repr, DecidableEq

/-- The quota test in `saveInspection`'s catch clause. -/
def isQuotaError (e : JsError) : Bool :=
  e.name = "QuotaExceededError" || e.code = some 22

/-! ## JavaScript `Map` embedding

`performInitialLoad` merges via `new Map()`: `set` updates an existing key in
place (keeping insertion order) or appends a new entry, and
`Array.from(map.values())` lists values in insertion order. -/

/-- Association-list model of a JS `Map<string, a>`: `set` replaces the first
entry with the key, else appends. -/
def mapSet {α : Type} : List (String × α) → String → α → List (String × α)
  | [], k, v => [(k, v)]
  | p :: rest, k, v =>
      if p.1 = k then (k, v) :: rest else p :: mapSet rest k v

/-- `map.get`, as a first-match association lookup. -/
def mapLookup {α : Type} (m : List (String × α)) (k : String) : Option α :=
  (m.find? (fun p => p.1 = k)).map (fun p => p.2)

/-- `Array.from(map.values())`. -/
def mapValues {α : Type} (m : List (String × α)) : List α :=
  m.map (fun p => p.2)

/-- `xs.forEach(x => map.set(keyOf x, x))`. -/
def mapSetAll {α : Type} (keyOf : α → String) (m : List (String × α))
    (xs : List α) : List (String × α) :=
  xs.foldl (fun acc x => mapSet acc (keyOf x) x) m

/-- The entry that a sequence of `set` calls leaves at key `q`: the last
element of `xs` whose key is `q`, when any. -/
def findLastBy {α : Type} (keyOf : α → String) (q : String) : List α → Option α
  | [] => none
  | x :: rest =>
      optOr (findLastBy keyOf q rest) (if keyOf x = q then some x else none)

/-! ## Remote rows and `performInitialLoad`'s merge (storageService.ts) -/

/-- A row of the cloud `sites` table as consumed by `performInitialLoad`
(only `row.data` is read during the merge). -/
structure SiteRow where
  id : String
  data : Site
  deriving Repr, DecidableEq

/-- A row of the cloud `inspections` table as consumed by
`performInitialLoad` (`row.data` and the `pdf_url` column). -/
structure LogRow where
  id : String
  data : InspectionLog
  pdf_url : Option String
  deriving Repr, DecidableEq

/-- `{ ...row.data, synced: true }` for sites. -/
def formatCloudSite (row : SiteRow) : Site :=
  { row.data with synced := some true }

/-- `{ ...row.data, pdfUrl: row.pdf_url || row.data.pdfUrl, synced: true }`
for inspection logs. -/
def formatCloudLog (row : LogRow) : InspectionLog :=
  { row.data with
      pdfUrl := jsOrStr row.pdf_url row.data.pdfUrl
      synced := some true }

/-- The sites merge of `performInitialLoad`: formatted cloud rows first, then
every locally-pending (unsynced) site overlaid by id. -/
def mergeSites (localSites : List Site) (cloudSites : List SiteRow) :
    List Site :=
  let pendingSites := localSites.filter (fun s => !truthy s.synced)
  let formatted := cloudSites.map formatCloudSite
  mapValues (mapSetAll Site.id (mapSetAll Site.id [] formatted) pendingSites)

/-- The inspections merge of `performInitialLoad`: formatted cloud rows first,
then every locally-pending (unsynced) log overlaid by id. -/
def mergeLogs (localLogs : List InspectionLog) (cloudLogs : List LogRow) :
    List InspectionLog :=
  let pendingLogs := localLogs.filter (fun l => !truthy l.synced)
  let formatted := cloudLogs.map formatCloudLog
  mapValues
    (mapSetAll InspectionLog.id (mapSetAll InspectionLog.id [] formatted)
      pendingLogs)

/-- Steps 2-4 of `performInitialLoad` (after the initial `syncPendingData`
push): merge each collection whose cloud fetch succeeded (`none` models a
fetch error, which skips that merge), then dispatch both update events. -/
def performInitialLoadMerge (localSites : List Site)
    (localLogs : List InspectionLog) (cloudSites : Option (List SiteRow))
    (cloudLogs : Option (List LogRow)) :
    List Site × List InspectionLog × List String :=
  let sites :=
    match cloudSites with
    | some cs => mergeSites localSites cs
    | none => localSites
  let logs :=
    match cloudLogs with
    | some cl => mergeLogs localLogs cl
    | none => localLogs
  (sites, logs, ["sites-updated", "inspections-updated"])

/-- First record with a given id in a stored collection of sites. -/
def findSiteById (l : List Site) (q : String) : Option Site :=
  l.find? (fun s => s.id = q)

/-- First record with a given id in a stored collection of logs. -/
def findLogById (l : List InspectionLog) (q : String) : Option InspectionLog :=
  l.find? (fun i => i.id = q)

/-- Every entry set by `mapSetAll`/`mapSet` with key `keyOf value` keeps its
key consistent with its value. -/
def keyConsistent {α : Type} (keyOf : α → String)
    (m : List (String × α)) : Prop :=
  ∀ p ∈ m, keyOf p.2 = p.1

/-! ## Local record store operations (storageService.ts) -/

/-- `stripHeavyData`: clear the `photoUrl` of every answer of a log. -/
def stripHeavyData (log : InspectionLog) : InspectionLog :=
  { log with answers := log.answers.map (fun a => { a with photoUrl := none }) }

/-- The `findIndex`/assign-or-push upsert used by `saveInspection`: replace
the first record with the same id, else append. -/
def upsertLog (x : InspectionLog) : List InspectionLog → List InspectionLog
  | [] => [x]
  | i :: rest => if i.id = x.id then x :: rest else i :: upsertLog x rest

/-- The `findIndex`/assign-or-push upsert used by `saveSite`. -/
def upsertSite (x : Site) : List Site → List Site
  | [] => [x]
  | s :: rest => if s.id = x.id then x :: rest else s :: upsertSite x rest

/-- `inspections[idx].synced = true` after `findIndex(i => i.id === id)`:
mark the first record with the given id as synced. -/
def markFirstLogSynced : List InspectionLog → String → List InspectionLog
  | [], _ => []
  | i :: rest, q =>
      if i.id = q then { i with synced := some true } :: rest
      else i :: markFirstLogSynced rest q

/-- `allSites[idx].synced = true` after `findIndex(s => s.id === id)`. -/
def markFirstSiteSynced : List Site → String → List Site
  | [], _ => []
  | s :: rest, q =>
      if s.id = q then { s with synced := some true } :: rest
      else s :: markFirstSiteSynced rest q

/-- Outcome of one run of `saveInspection`, observed through the persisted
inspections collection, any error thrown to the caller, the DOM events
dispatched, and whether the immediate cloud push
(`uploadInspectionToSupabase`) was started. -/
structure SaveInspectionResult where
  inspections : List InspectionLog
  thrown : Option JsError
  events : List String
  pushAttempted : Bool
  deriving Repr, DecidableEq

/-- `storageService.saveInspection`.  `store` is the persisted inspections
collection on entry; `firstWrite`/`retryWrite` are the outcomes of the two
possible `localStorage.setItem` calls (`none` = success, `some e` = the error
thrown); `online` is `navigator.onLine` and `configured` is
`checkSupabaseConfig()` (which also decides whether `supabase` is non-null).
The trailing cloud push is fire-and-forget, recorded only as a flag. -/
def saveInspection (store : List InspectionLog) (inspection0 : InspectionLog)
    (firstWrite retryWrite : Option JsError) (online configured : Bool) :
    SaveInspectionResult :=
  let inspection := { inspection0 with synced := some false }
  let ins := upsertLog inspection store
  let push := configured && online && !(strTruthy inspection.pdfUrl)
  match firstWrite with
  | none =>
      { inspections := ins, thrown := none, events := [],
        pushAttempted := push }
  | some e =>
      if isQuotaError e then
        let cleaned := ins.map (fun i =>
          if truthy i.synced && i.id ≠ inspection.id then stripHeavyData i
          else i)
        match retryWrite with
        | none =>
            { inspections := cleaned, thrown := none, events := [],
              pushAttempted := push }
        | some e2 =>
            if online then
              { inspections := store, thrown := none, events := [],
                pushAttempted := push }
            else
              { inspections := store, thrown := some e2, events := [],
                pushAttempted := false }
      else
        { inspections := store, thrown := none, events := [],
          pushAttempted := push }

/-- Outcome of `uploadInspectionWithPDF`: either a thrown error (missing
configuration, failed blob upload, or failed database upsert) or the nested
`saveInspection` outcome together with the returned public URL. -/
inductive UploadWithPDFResult
  | errNoConfig
  | errUpload (e : String)
  | errDb (e : String)
  | ok (r : SaveInspectionResult) (url : String)
  deriving Repr, DecidableEq

/-- `storageService.uploadInspectionWithPDF`.  `uploadError`/`dbError` are
the outcomes of the storage upload and the `inspections` upsert; `publicUrl`
is the URL resolved by `getPublicUrl`.  On full success the function stores
`{ ...log, pdfUrl: publicUrl, synced: true }` through `saveInspection`. -/
def uploadInspectionWithPDF (store : List InspectionLog)
    (log : InspectionLog) (configured : Bool) (uploadError : Option String)
    (publicUrl : String) (dbError : Option String)
    (firstWrite retryWrite : Option JsError) (online : Bool) :
    UploadWithPDFResult :=
  if !configured then .errNoConfig
  else
    match uploadError with
    | some e => .errUpload e
    | none =>
        match dbError with
        | some e => .errDb e
        | none =>
            let updatedLog :=
              { log with pdfUrl := some publicUrl, synced := some true }
            .ok (saveInspection store updatedLog firstWrite retryWrite
                  online configured) publicUrl

/-- Outcome of `syncPendingData`: final persisted collections plus the
returned `syncedCount`. -/
structure SyncResult where
  sites : List Site
  inspections : List InspectionLog
  syncedCount : Nat
  deriving Repr, DecidableEq

/-- The inspections pass of `syncPendingData`: attempt every pending
(unsynced) log in order, each success marking that log synced in the
threaded store and bumping `syncedCount`; a failure is caught and skipped. -/
def pushPendingLogs (inspections : List InspectionLog)
    (ok : String → Bool) : List InspectionLog × Nat :=
  (inspections.filter (fun i => !truthy i.synced)).foldl
    (fun (acc : List InspectionLog × Nat) log =>
      if ok log.id then (markFirstLogSynced acc.1 log.id, acc.2 + 1)
      else acc)
    (inspections, 0)

/-- The sites pass of `syncPendingData`: attempt every pending site, each
success marking it synced; failures are swallowed and nothing is counted. -/
def pushPendingSites (sites : List Site) (ok : String → Bool) : List Site :=
  (sites.filter (fun s => !truthy s.synced)).foldl
    (fun acc site =>
      if ok site.id then markFirstSiteSynced acc site.id else acc)
    sites

/-- `storageService.syncPendingData`.  `logUpsertOk`/`siteUpsertOk` give the
per-item outcome of the cloud upsert for a record id (`true` = success).
Offline or unconfigured, it returns `{ syncedCount: 0 }` immediately without
touching the stores; otherwise it runs the inspections pass (counted) and
the sites pass (not counted).  Local writes of the synced flags are
modelled as succeeding. -/
def syncPendingData (sites : List Site) (inspections : List InspectionLog)
    (online configured : Bool) (logUpsertOk siteUpsertOk : String → Bool) :
    SyncResult :=
  if !online || !configured then ⟨sites, inspections, 0⟩
  else
    ⟨pushPendingSites sites siteUpsertOk,
      (pushPendingLogs inspections logUpsertOk).1,
      (pushPendingLogs inspections logUpsertOk).2⟩

/-- Outcome of `saveSite`: final persisted sites collection and the DOM
events dispatched. -/
structure SaveSiteResult where
  sites : List Site
  events : List String
  deriving Repr, DecidableEq

/-- `storageService.saveSite`.  `localWrite` is the outcome of the first
`localStorage.setItem` (its error is caught and only logged); `cloudOk`
says whether the guarded cloud upsert returned without error.  After a
successful cloud upsert the fresh collection is re-read and the saved site,
when found, is marked synced and the collection persisted again (that second
write is modelled as succeeding), dispatching a second event. -/
def saveSite (store : List Site) (site0 : Site) (localWrite : Option JsError)
    (online configured cloudOk : Bool) : SaveSiteResult :=
  let site := { site0 with synced := some false }
  let sites := upsertSite site store
  let afterLocal : List Site × List String :=
    match localWrite with
    | none => (sites, ["sites-updated"])
    | some _ => (store, [])
  if configured && online && cloudOk then
    if afterLocal.1.any (fun s => s.id = site.id) then
      ⟨markFirstSiteSynced afterLocal.1 site.id,
        afterLocal.2 ++ ["sites-updated"]⟩
    else ⟨afterLocal.1, afterLocal.2⟩
  else ⟨afterLocal.1, afterLocal.2⟩

/-- `storageService.deleteSite`: filter the site out, persist (write modelled
as succeeding), dispatch `sites-updated`.  The guarded cloud delete does not
touch local state. -/
def deleteSite (store : List Site) (siteId : String) :
    List Site × List String :=
  (store.filter (fun s => s.id ≠ siteId), ["sites-updated"])

/-! ## `getSites` and its demo clean-up (storageService.ts) -/

/-- The raw persisted value under the `sp_sites` key, as seen through
`JSON.parse`: absent, unparseable (parse throws), parseable but not an
array, or an array of sites. -/
inductive StoredSites
  | absent
  | corrupt
  | nonArray
  | arr (l : List Site)
  deriving Repr, DecidableEq

/-- `storageService.getSites`: returns the list handed to the caller and the
storage state left behind.  An absent key is seeded with the empty
`SEED_SITES`; a parse failure is caught and yields `[]` without writing; a
non-array parse yields `[]` without writing; an array containing the demo id
`site-1` is pruned and the pruned array written back. -/
def getSites : StoredSites → List Site × StoredSites
  | .absent => ([], .arr [])
  | .corrupt => ([], .corrupt)
  | .nonArray => ([], .nonArray)
  | .arr l =>
      if l.any (fun s => s.id = "site-1") then
        let pruned := l.filter (fun s => s.id ≠ "site-1")
        (pruned, .arr pruned)
      else (l, .arr l)

/-! ## Draft lifecycle and photo blob store -/

/-- Modelled from the spec: the `drafts` collection and
`storageService.saveDraft` / `getDraft` / `deleteDraft` are not under `src/`
(only their call sites in `src/unnamed/part_004` and `src/unnamed/part_002`
are).  Per §4.3/§6 of the spec the collection is a mapping from site id to a
single draft record. -/
def DraftStore : Type := String → Option InspectionDraft

/-- Modelled from the spec: `save(draft)` upserts into the single-slot-per-
site draft mapping, keyed by the draft's `siteId`. -/
def saveDraft (st : DraftStore) (d : InspectionDraft) : DraftStore :=
  fun k => if k = d.siteId then some d else st k

/-- Modelled from the spec: `get(siteId) -> draft or absent`. -/
def getDraft (st : DraftStore) (siteId : String) : Option InspectionDraft :=
  st siteId

/-- Modelled from the spec: `delete(siteId)` clears the slot. -/
def deleteDraft (st : DraftStore) (siteId : String) : DraftStore :=
  fun k => if k = siteId then none else st k

/-- Modelled from the spec: the PhotoBlobStore (`services/db.ts` is not under
`src/`) is a keyed mapping of photo payloads; `get` of a missing id is
absent and `delete` of a missing id is a no-op. -/
def PhotoBlobStore : Type := String → Option String

/-- Modelled from the spec: `save(id, payload)`. -/
def savePhoto (st : PhotoBlobStore) (id payload : String) : PhotoBlobStore :=
  fun k => if k = id then some payload else st k

/-- Modelled from the spec: `get(id) -> payload or absent`. -/
def getPhoto (st : PhotoBlobStore) (id : String) : Option String :=
  st id

/-- Modelled from the spec: `delete(id)`, a no-op on a missing id. -/
def deletePhoto (st : PhotoBlobStore) (id : String) : PhotoBlobStore :=
  fun k => if k = id then none else st k

/-- Upload status values of the wizard step
(`'none' | 'uploading' | 'done' | 'offline'`). -/
inductive PhotoStatus
  | noneYet | uploading | done | offline
  deriving Repr, DecidableEq

/-- Outcome of `handlePhotoUpload`: blob store state, the photo reference the
step will record into the Answer (`tempPhotoRef`), and the final status. -/
structure PhotoUploadResult where
  store : PhotoBlobStore
  tempPhotoRef : Option String
  status : PhotoStatus

/-- `handlePhotoUpload` in the inspection wizard (src/unnamed/part_004),
after the image is read and compressed: save the compressed payload into the
blob store under `siteId_pointId_timestamp`, set the reference to
`local::<id>`, and, when online and configured, start `uploadPhotoBlob`; a
resolved truthy `publicUrl` replaces the reference and sets status `done`,
while a falsy result or a rejection leaves the local reference and sets
status `offline`.  `uploadedUrl` is the settled outcome of that upload
(`none` = rejected). -/
def handlePhotoUpload (st : PhotoBlobStore) (siteId pointId : String)
    (ts : Nat) (compressed : String) (online configured : Bool)
    (uploadedUrl : Option String) : PhotoUploadResult :=
  let photoId := siteId ++ "_" ++ pointId ++ "_" ++ toString ts
  let st2 := savePhoto st photoId compressed
  let localRef := "local::" ++ photoId
  if online && configured then
    match uploadedUrl with
    | some url =>
        if url = "" then ⟨st2, some localRef, .offline⟩
        else ⟨st2, some url, .done⟩
    | none => ⟨st2, some localRef, .offline⟩
  else ⟨st2, some localRef, .offline⟩

/-! ## Sample records for witnesses and counterexamples -/

/-- A locally-pending (never synced) site. -/
def pendingSiteS1 : Site :=
  { id := "s1", name := "Cantera Norte", areas := [], synced := none,
    periodicity := none, contactPhone := none, lastReminderSent := none }

/-- The legacy demo site that `getSites` prunes. -/
def demoSite : Site :=
  { id := "site-1", name := "Demo", areas := [], synced := some true,
    periodicity := none, contactPhone := none, lastReminderSent := none }

/-- A cloud row for site id `s1` with different content than the local copy. -/
def rowCloudS1 : SiteRow :=
  { id := "s1",
    data := { id := "s1", name := "Cantera Norte (cloud)", areas := [],
              synced := none, periodicity := none, contactPhone := none,
              lastReminderSent := none } }

/-- An answer carrying an inline photo payload. -/
def answerPhoto : Answer :=
  { pointId := "p1", pointName := "Extintor", question := "Presion correcta?",
    areaName := "Caseta", isOk := true, photoUrl := some "data:image/jpeg;x",
    comments := none, timestamp := 1 }

/-- A completed log already marked synced, with an inline photo. -/
def syncedLogA : InspectionLog :=
  { id := "A", siteId := "s1", siteName := "Cantera Norte",
    date := "2026-01-01", inspectorName := "Ana", inspectorDni := "1",
    inspectorEmail := "a@x.y", answers := [answerPhoto], status := .completed,
    synced := some true, pdfUrl := some "https://cloud/reports/A.pdf" }

/-- A completed log not yet synced, with an inline photo. -/
def unsyncedLogB : InspectionLog :=
  { id := "B", siteId := "s1", siteName := "Cantera Norte",
    date := "2026-01-02", inspectorName := "Ana", inspectorDni := "1",
    inspectorEmail := "a@x.y", answers := [answerPhoto], status := .completed,
    synced := some false, pdfUrl := none }

/-- A new log being saved, with an inline photo and no PDF yet. -/
def logC : InspectionLog :=
  { id := "C", siteId := "s1", siteName := "Cantera Norte",
    date := "2026-01-03", inspectorName := "Ana", inspectorDni := "1",
    inspectorEmail := "a@x.y", answers := [answerPhoto], status := .completed,
    synced := none, pdfUrl := none }

/-- A log that already carries a PDF URL. -/
def logWithPdf : InspectionLog :=
  { id := "D", siteId := "s1", siteName := "Cantera Norte",
    date := "2026-01-04", inspectorName := "Ana", inspectorDni := "1",
    inspectorEmail := "a@x.y", answers := [], status := .completed,
    synced := none, pdfUrl := some "https://cloud/reports/D.pdf" }

/-- A cloud inspections row whose `pdf_url` column is set. -/
def rowCloudLogL1 : LogRow :=
  { id := "l1",
    data := { id := "l1", siteId := "s1", siteName := "Cantera Norte",
              date := "2026-01-01", inspectorName := "Ana",
              inspectorDni := "1", inspectorEmail := "a@x.y", answers := [],
              status := .completed, synced := none,
              pdfUrl := some "https://stale/old.pdf" },
    pdf_url := some "https://cloud/reports/l1.pdf" }

/-- A quota-exceeded storage error. -/
def quotaErr : JsError := { name := "QuotaExceededError", code := none }

/-- A storage error that is not a quota error. -/
def otherErr : JsError := { name := "TypeError", code := none }

/-! ## Map lemmas -/

theorem mapLookup_mapSet {α : Type} (m : List (String × α)) (k : String)
    (v : α) (q : String) :
    mapLookup (mapSet m k v) q = if k = q then some v else mapLookup m q := by
  induction m with
  | nil =>
      by_cases h : k = q <;> simp [mapSet, mapLookup, List.find?, h]
  | cons p rest ih =>
      by_cases hpk : p.1 = k
      · by_cases hkq : k = q
        · simp [mapSet, hpk, mapLookup, List.find?, hkq]
        · have hpq : ¬ p.1 = q := by rw [hpk]; exact hkq
          simp [mapSet, hpk, mapLookup, List.find?, hkq, hpq]
      · by_cases hpq : p.1 = q
        · have hqk : ¬ q = k := fun hh => hpk (hpq.trans hh)
          have hkq : ¬ k = q := fun hh => hqk hh.symm
          simp [mapSet, hpk, mapLookup, List.find?, hpq, hkq, hqk]
        · simpa [mapSet, hpk, mapLookup, List.find?, hpq] using ih

theorem optOr_assoc_if {α : Type} (a : Option α) (c : Prop) [Decidable c]
    (x : α) (b : Option α) :
    optOr a (if c then some x else b) =
      optOr (optOr a (if c then some x else none)) b := by
  cases a with
  | some y => rfl
  | none =>
      by_cases h : c <;> simp [optOr, h]

theorem optOr_none_right {α : Type} (a : Option α) : optOr a none = a := by
  cases a <;> rfl

theorem mapLookup_mapSetAll {α : Type} (keyOf : α → String) (xs : List α)
    (m : List (String × α)) (q : String) :
    mapLookup (mapSetAll keyOf m xs) q =
      optOr (findLastBy keyOf q xs) (mapLookup m q) := by
  induction xs generalizing m with
  | nil => simp [mapSetAll, findLastBy, optOr]
  | cons x rest ih =>
      have step : mapLookup (mapSetAll keyOf m (x :: rest)) q =
          optOr (findLastBy keyOf q rest)
            (if keyOf x = q then some x else mapLookup m q) := by
        simpa [mapSetAll, mapLookup_mapSet] using
          ih (mapSet m (keyOf x) x)
      rw [step, findLastBy, optOr_assoc_if]

theorem keyConsistent_mapSet {α : Type} (keyOf : α → String)
    (m : List (String × α)) (v : α) (h : keyConsistent keyOf m) :
    keyConsistent keyOf (mapSet m (keyOf v) v) := by
  induction m with
  | nil =>
      intro p hp
      simp [mapSet] at hp
      subst hp; rfl
  | cons hd rest ih =>
      intro p hp
      by_cases hhd : hd.1 = keyOf v
      · simp [mapSet, hhd] at hp
        rcases hp with hp1 | hp2
        · subst hp1; rfl
        · exact h p (List.mem_cons_of_mem hd hp2)
      · simp [mapSet, hhd] at hp
        rcases hp with hp1 | hp2
        · rw [hp1]; exact h hd (List.mem_cons_self hd rest)
        · exact ih (fun r hr => h r (List.mem_cons_of_mem hd hr)) p hp2

theorem keyConsistent_mapSetAll {α : Type} (keyOf : α → String)
    (xs : List α) (m : List (String × α)) (h : keyConsistent keyOf m) :
    keyConsistent keyOf (mapSetAll keyOf m xs) := by
  induction xs generalizing m with
  | nil => simpa [mapSetAll] using h
  | cons x rest ih =>
      have h1 : keyConsistent keyOf (mapSet m (keyOf x) x) :=
        keyConsistent_mapSet keyOf m x h
      simpa [mapSetAll] using ih (mapSet m (keyOf x) x) h1

theorem find_mapValues {α : Type} (keyOf : α → String)
    (m : List (String × α)) (q : String) (h : keyConsistent keyOf m) :
    (mapValues m).find? (fun v => keyOf v = q) = mapLookup m q := by
  induction m with
  | nil => simp [mapValues, mapLookup]
  | cons p rest ih =>
      have hp : keyOf p.2 = p.1 := h p (by simp)
      by_cases hq : p.1 = q
      · simp [mapValues, mapLookup, List.find?, hp, hq]
      · have hq2 : ¬ keyOf p.2 = q := by rw [hp]; exact hq
        have ihr := ih (fun r hr => h r (by simp [hr]))
        simpa [mapValues, mapLookup, List.find?, hp, hq, hq2] using ihr

/-- Characterization of the sites merge: the record stored under an id is
the last locally-pending site with that id when one exists, else the last
formatted cloud site with that id. -/
theorem mergeSites_find_eq (localSites : List Site)
    (cloudSites : List SiteRow) (q : String) :
    findSiteById (mergeSites localSites cloudSites) q =
      optOr
        (findLastBy Site.id q (localSites.filter (fun s => !truthy s.synced)))
        (findLastBy Site.id q (cloudSites.map formatCloudSite)) := by
  have kc0 : keyConsistent Site.id ([] : List (String × Site)) := by
    intro p hp; exact absurd hp (List.not_mem_nil p)
  have kc1 := keyConsistent_mapSetAll Site.id (cloudSites.map formatCloudSite)
    [] kc0
  have kc2 := keyConsistent_mapSetAll Site.id
    (localSites.filter (fun s => !truthy s.synced)) _ kc1
  simp only [mergeSites, findSiteById]
  rw [find_mapValues Site.id _ q kc2, mapLookup_mapSetAll, mapLookup_mapSetAll]
  simp [mapLookup, optOr_none_right]

/-- Characterization of the inspections merge, as for sites. -/
theorem mergeLogs_find_eq (localLogs : List InspectionLog)
    (cloudLogs : List LogRow) (q : String) :
    findLogById (mergeLogs localLogs cloudLogs) q =
      optOr
        (findLastBy InspectionLog.id q
          (localLogs.filter (fun l => !truthy l.synced)))
        (findLastBy InspectionLog.id q (cloudLogs.map formatCloudLog)) := by
  have kc0 : keyConsistent InspectionLog.id
      ([] : List (String × InspectionLog)) := by
    intro p hp; exact absurd hp (List.not_mem_nil p)
  have kc1 := keyConsistent_mapSetAll InspectionLog.id
    (cloudLogs.map formatCloudLog) [] kc0
  have kc2 := keyConsistent_mapSetAll InspectionLog.id
    (localLogs.filter (fun l => !truthy l.synced)) _ kc1
  simp only [mergeLogs, findLogById]
  rw [find_mapValues InspectionLog.id _ q kc2, mapLookup_mapSetAll,
    mapLookup_mapSetAll]
  simp [mapLookup, optOr_none_right]

/-! ## Upsert and sync lemmas -/

theorem self_mem_upsertLog (x : InspectionLog) (l : List InspectionLog) :
    x ∈ upsertLog x l := by
  induction l with
  | nil => simp [upsertLog]
  | cons hd rest ih =>
      by_cases h : hd.id = x.id
      · simp [upsertLog, h]
      · simp only [upsertLog, h, if_false, List.mem_cons]
        exact Or.inr ih

theorem mem_upsertLog_of_ne (x i : InspectionLog) (l : List InspectionLog)
    (hi : i ∈ l) (hne : i.id ≠ x.id) : i ∈ upsertLog x l := by
  induction l with
  | nil => cases hi
  | cons hd rest ih =>
      rcases List.mem_cons.mp hi with rfl | h2
      · simp [upsertLog, if_neg hne]
      · by_cases h : hd.id = x.id
        · simp only [upsertLog, if_pos h, List.mem_cons]
          exact Or.inr h2
        · simp only [upsertLog, if_neg h, List.mem_cons]
          exact Or.inr (ih h2)

theorem syncCount_foldl (ok : String → Bool) (pending : List InspectionLog) :
    ∀ (st : List InspectionLog) (n : Nat),
      (pending.foldl
        (fun (acc : List InspectionLog × Nat) log =>
          if ok log.id then (markFirstLogSynced acc.1 log.id, acc.2 + 1)
          else acc)
        (st, n)).2 = n + pending.countP (fun l => ok l.id) := by
  induction pending with
  | nil => intro st n; simp
  | cons hd rest ih =>
      intro st n
      by_cases h : ok hd.id = true
      · rw [List.foldl_cons]
        simp only [h, if_true]
        rw [ih, List.countP_cons]
        simp [h]
        omega
      · rw [List.foldl_cons]
        simp only [h, if_false]
        rw [ih, List.countP_cons]
        simp [h]

/-! ## Claim theorems -/

/-- Claim C1: the merge of `performInitialLoad` (pullAuthoritative) gives
locally-pending records precedence: for any id, if the pending (unsynced)
part of the local collection holds a record with that id, the merged
collection stores exactly that record unchanged; if the id occurs only in
the remote fetch result, the merged collection stores the remote version
formatted on arrival, which is marked `synced = true`; and this holds for
both the sites and the inspections collections. -/
theorem c1_pull_merge_precedence (localSites : List Site)
    (cloudSites : List SiteRow) (localLogs : List InspectionLog)
    (cloudLogs : List LogRow) (q : String) :
    (∀ p, findLastBy Site.id q
        (localSites.filter (fun s => !truthy s.synced)) = some p →
      findSiteById (mergeSites localSites cloudSites) q = some p)
    ∧ (findLastBy Site.id q
        (localSites.filter (fun s => !truthy s.synced)) = none →
      findSiteById (mergeSites localSites cloudSites) q =
        findLastBy Site.id q (cloudSites.map formatCloudSite))
    ∧ (∀ row : SiteRow, (formatCloudSite row).synced = some true)
    ∧ (∀ p, findLastBy InspectionLog.id q
        (localLogs.filter (fun l => !truthy l.synced)) = some p →
      findLogById (mergeLogs localLogs cloudLogs) q = some p)
    ∧ (findLastBy InspectionLog.id q
        (localLogs.filter (fun l => !truthy l.synced)) = none →
      findLogById (mergeLogs localLogs cloudLogs) q =
        findLastBy InspectionLog.id q (cloudLogs.map formatCloudLog))
    ∧ (∀ row : LogRow, (formatCloudLog row).synced = some true) := by
  have hs := mergeSites_find_eq localSites cloudSites q
  have hl := mergeLogs_find_eq localLogs cloudLogs q
  refine ⟨?_, ?_, ?_, ?_, ?_, ?_⟩
  · intro p hp; rw [hs, hp]; rfl
  · intro hp; rw [hs, hp]; exact (rfl : optOr none _ = _) ▸ rfl
  · intro row; rfl
  · intro p hp; rw [hl, hp]; rfl
  · intro hp; rw [hl, hp]; rfl
  · intro row; rfl

/-- Witness for C1 at a concrete state: site id `s1` is pending locally and
also present remotely, so the merged collection keeps the local pending
version; log id `l1` is only remote, so the merged collection stores the
formatted remote version. -/
theorem c1_pull_merge_precedence_witness :
    findSiteById (mergeSites [pendingSiteS1] [rowCloudS1]) "s1"
        = some pendingSiteS1
    ∧ findLogById (mergeLogs [] [rowCloudLogL1]) "l1"
        = some (formatCloudLog rowCloudLogL1) := by
  constructor
  · exact (c1_pull_merge_precedence [pendingSiteS1] [rowCloudS1] []
      [rowCloudLogL1] "s1").1 pendingSiteS1 (by decide)
  · exact ((c1_pull_merge_precedence [pendingSiteS1] [rowCloudS1] []
      [rowCloudLogL1] "l1").2.2.2.2.1 (by decide)).trans (by decide)

/-- The count of `pushPendingLogs` equals the number of pending logs whose
cloud upsert succeeds, regardless of the outcome of any other item. -/
theorem pushPendingLogs_count (ins : List InspectionLog)
    (ok : String → Bool) :
    (pushPendingLogs ins ok).2 =
      (ins.filter (fun i => !truthy i.synced)).countP
        (fun i => ok i.id) := by
  unfold pushPendingLogs
  rw [syncCount_foldl]
  exact Nat.zero_add _

/-- Claim C2 (evaluation of the buggy path): for a fully successful
`uploadInspectionWithPDF` run — blob upload ok, `getPublicUrl` resolving the
public URL, metadata upsert ok, local write ok, online and configured — the
log stored in the local inspections collection carries the public URL but has
`synced = some false`, not `synced = true` as the spec's
completed-unsynced → completed-synced transition requires: the nested
`saveInspection` call unconditionally resets `synced` to `false`, clobbering
the `synced: true` that `uploadInspectionWithPDF` just set. -/
theorem c2_upload_stores_unsynced_locally :
    uploadInspectionWithPDF [] logC true none "https://cloud/reports/C.pdf"
        none none none true
      = .ok
          { inspections :=
              [{ logC with
                  pdfUrl := some "https://cloud/reports/C.pdf"
                  synced := some false }],
            thrown := none, events := [], pushAttempted := false }
          "https://cloud/reports/C.pdf" := by
  rfl

/-- Counterexample to claim C3: after a successful photo upload the wizard
replaces the reference by the public URL but never deletes the local blob,
so `PhotoBlobStore.get` still returns the payload rather than absent. -/
theorem c3_blob_retained_after_upload :
    (handlePhotoUpload (fun _ => none) "s1" "p1" 5 "PHOTODATA" true true
        (some "https://cdn/x.jpg")).tempPhotoRef = some "https://cdn/x.jpg"
    ∧ getPhoto
        (handlePhotoUpload (fun _ => none) "s1" "p1" 5 "PHOTODATA" true true
          (some "https://cdn/x.jpg")).store "s1_p1_5"
        = some "PHOTODATA" := by
  constructor <;> rfl

/-- Claim C3 (amended): for a photo saved as `local::<id>`, a successful
(truthy) blob upload leaves the Answer reference equal to the returned
public URL while the blob REMAINS retrievable in the local store (it is not
deleted); a failed upload leaves the reference as `local::<id>` and the blob
retrievable. -/
theorem c3_photo_promotion_amended (st : PhotoBlobStore)
    (siteId pointId : String) (ts : Nat) (compressed url : String)
    (h : ¬ url = "") :
    ((handlePhotoUpload st siteId pointId ts compressed true true
        (some url)).tempPhotoRef = some url
      ∧ getPhoto
          (handlePhotoUpload st siteId pointId ts compressed true true
            (some url)).store
          (siteId ++ "_" ++ pointId ++ "_" ++ toString ts) = some compressed)
    ∧ ((handlePhotoUpload st siteId pointId ts compressed true true
          none).tempPhotoRef
        = some ("local::" ++ (siteId ++ "_" ++ pointId ++ "_" ++ toString ts))
      ∧ getPhoto
          (handlePhotoUpload st siteId pointId ts compressed true true
            none).store
          (siteId ++ "_" ++ pointId ++ "_" ++ toString ts) = some compressed) := by
  refine ⟨⟨?_, ?_⟩, ?_, ?_⟩ <;>
    simp [handlePhotoUpload, getPhoto, savePhoto, h]

/-- Witness for the amended C3 at a concrete store and photo. -/
theorem c3_photo_promotion_amended_witness :
    ((handlePhotoUpload (fun _ => none) "s1" "p1" 5 "DATA" true true
        (some "https://cdn/x.jpg")).tempPhotoRef = some "https://cdn/x.jpg"
      ∧ getPhoto
          (handlePhotoUpload (fun _ => none) "s1" "p1" 5 "DATA" true true
            (some "https://cdn/x.jpg")).store
          ("s1" ++ "_" ++ "p1" ++ "_" ++ toString 5) = some "DATA")
    ∧ ((handlePhotoUpload (fun _ => none) "s1" "p1" 5 "DATA" true true
          none).tempPhotoRef
        = some ("local::" ++ ("s1" ++ "_" ++ "p1" ++ "_" ++ toString 5))
      ∧ getPhoto
          (handlePhotoUpload (fun _ => none) "s1" "p1" 5 "DATA" true true
            none).store
          ("s1" ++ "_" ++ "p1" ++ "_" ++ toString 5) = some "DATA") :=
  c3_photo_promotion_amended (fun _ => none) "s1" "p1" 5 "DATA"
    "https://cdn/x.jpg" (by decide)

/-- Counterexample to claim C4's push clause: when the quota retry also
fails while ONLINE, no cloud push is attempted if the record already has a
PDF URL — the push is additionally gated on `!inspection.pdfUrl`. -/
theorem c4_no_push_when_pdfurl_present :
    (saveInspection [] logWithPdf (some quotaErr) (some quotaErr) true
        true).pushAttempted = false
    ∧ (saveInspection [] logWithPdf (some quotaErr) (some quotaErr) true
        true).thrown = none := by
  constructor <;> rfl

/-- Claim C4 (amended): under a quota-exceeded first write, the retried
write contains every other already-synced record with its answers' photo
data stripped, every unsynced record unchanged, and the record being saved
(with its `synced` flag forced false) unchanged with photos intact; if the
retry also fails offline the retry error is surfaced; if it fails online no
error is surfaced and a cloud push is attempted iff the backend is
configured AND the record has no PDF URL. -/
theorem c4_quota_fallback_amended (store : List InspectionLog)
    (insp0 : InspectionLog) (e e2 : JsError) (online configured : Bool)
    (hq : isQuotaError e = true) :
    (∀ i ∈ store, truthy i.synced = true → i.id ≠ insp0.id →
      stripHeavyData i ∈
        (saveInspection store insp0 (some e) none online
          configured).inspections)
    ∧ (∀ i ∈ store, truthy i.synced = false → i.id ≠ insp0.id →
      i ∈ (saveInspection store insp0 (some e) none online
          configured).inspections)
    ∧ ({ insp0 with synced := some false } ∈
        (saveInspection store insp0 (some e) none online
          configured).inspections
      ∧ ({ insp0 with synced := some false } : InspectionLog).answers
          = insp0.answers)
    ∧ (saveInspection store insp0 (some e) (some e2) false configured).thrown
        = some e2
    ∧ ((saveInspection store insp0 (some e) (some e2) true
          configured).thrown = none
      ∧ (saveInspection store insp0 (some e) (some e2) true
          configured).pushAttempted
        = (configured && !(strTruthy insp0.pdfUrl))) := by
  refine ⟨?_, ?_, ⟨?_, rfl⟩, ?_, ?_, ?_⟩
  · intro i hi hs hne
    have hmem : i ∈ upsertLog { insp0 with synced := some false } store :=
      mem_upsertLog_of_ne _ i store hi hne
    simp only [saveInspection, hq, if_true]
    exact List.mem_map.mpr ⟨i, hmem, by simp [hs, hne]⟩
  · intro i hi hs hne
    have hmem : i ∈ upsertLog { insp0 with synced := some false } store :=
      mem_upsertLog_of_ne _ i store hi hne
    simp only [saveInspection, hq, if_true]
    exact List.mem_map.mpr ⟨i, hmem, by simp [hs]⟩
  · simp only [saveInspection, hq, if_true]
    exact List.mem_map.mpr
      ⟨{ insp0 with synced := some false }, self_mem_upsertLog _ store,
        by simp [truthy]⟩
  · simp [saveInspection, hq]
  · simp [saveInspection, hq]
  · simp [saveInspection, hq]

/-- Witness for the amended C4: collection `[A(synced, photo),
B(unsynced, photo)]` plus new record `C` under quota pressure. -/
theorem c4_quota_fallback_amended_witness :
    stripHeavyData syncedLogA ∈
      (saveInspection [syncedLogA, unsyncedLogB] logC (some quotaErr) none
        true true).inspections
    ∧ unsyncedLogB ∈
      (saveInspection [syncedLogA, unsyncedLogB] logC (some quotaErr) none
        true true).inspections
    ∧ (saveInspection [syncedLogA, unsyncedLogB] logC (some quotaErr)
        (some quotaErr) false true).thrown = some quotaErr := by
  refine ⟨?_, ?_, ?_⟩
  · exact (c4_quota_fallback_amended [syncedLogA, unsyncedLogB] logC
      quotaErr quotaErr true true (by decide)).1 syncedLogA (by decide)
      (by decide) (by decide)
  · exact (c4_quota_fallback_amended [syncedLogA, unsyncedLogB] logC
      quotaErr quotaErr true true (by decide)).2.1 unsyncedLogB (by decide)
      (by decide) (by decide)
  · exact (c4_quota_fallback_amended [syncedLogA, unsyncedLogB] logC
      quotaErr quotaErr true true (by decide)).2.2.2.1

/-- Counterexample to claim C5: with one pending site, no pending logs, and
every upload succeeding, `syncPendingData` marks the site synced (the upload
succeeded and the flag was flipped) yet returns `syncedCount = 0`, not the
count of successfully synced items across both collections (which is 1). -/
theorem c5_site_sync_not_counted :
    syncPendingData [pendingSiteS1] [] true true (fun _ => true)
        (fun _ => true)
      = ⟨[{ pendingSiteS1 with synced := some true }], [], 0⟩ := by
  rfl

/-- Claim C5 (amended): invoked offline or unconfigured, `syncPendingData`
returns a zero count immediately without mutating either store; otherwise
the returned count equals the number of pending (unsynced) InspectionLogs
whose upload succeeds — successfully uploaded pending Sites are marked
synced but never counted — and each item's outcome is independent of the
failures of other items (the count is a pointwise count over all pending
logs); with no pending sites the sites store is left unchanged. -/
theorem c5_sync_pending_amended (sites : List Site)
    (ins : List InspectionLog) (logOk siteOk : String → Bool) :
    (∀ online configured : Bool, online = false ∨ configured = false →
      syncPendingData sites ins online configured logOk siteOk
        = ⟨sites, ins, 0⟩)
    ∧ (syncPendingData sites ins true true logOk siteOk).syncedCount
        = (ins.filter (fun i => !truthy i.synced)).countP
            (fun i => logOk i.id)
    ∧ (sites.filter (fun s => !truthy s.synced) = [] →
      (syncPendingData sites ins true true logOk siteOk).sites = sites) := by
  refine ⟨?_, ?_, ?_⟩
  · rintro online configured (rfl | rfl) <;> simp [syncPendingData]
  · simp [syncPendingData, pushPendingLogs_count]
  · intro h
    simp [syncPendingData, pushPendingSites, h]

/-- Witness for the amended C5 at a concrete state: offline no-op, count of
one successful pending log, and unchanged sites store. -/
theorem c5_sync_pending_amended_witness :
    syncPendingData [] [unsyncedLogB] false true (fun _ => true)
        (fun _ => true)
      = ⟨[], [unsyncedLogB], 0⟩
    ∧ (syncPendingData [] [unsyncedLogB] true true (fun _ => true)
        (fun _ => true)).syncedCount
      = ([unsyncedLogB].filter (fun i => !truthy i.synced)).countP
          (fun i => (fun _ => true : String → Bool) i.id)
    ∧ (syncPendingData [] [unsyncedLogB] true true (fun _ => true)
        (fun _ => true)).sites = [] := by
  refine ⟨?_, ?_, ?_⟩
  · exact (c5_sync_pending_amended [] [unsyncedLogB] (fun _ => true)
      (fun _ => true)).1 false true (Or.inl rfl)
  · exact (c5_sync_pending_amended [] [unsyncedLogB] (fun _ => true)
      (fun _ => true)).2.1
  · exact (c5_sync_pending_amended [] [unsyncedLogB] (fun _ => true)
      (fun _ => true)).2.2 rfl

/-- Counterexample to claim C6: a fully successful local `saveInspection`
(the record is persisted) dispatches NO change event at all — the claim
requires `inspections-updated` after every successful local mutation. -/
theorem c6_save_inspection_emits_no_event :
    (saveInspection [] logC none none true true).inspections
        = [{ logC with synced := some false }]
    ∧ (saveInspection [] logC none none true true).events = [] := by
  constructor <;> rfl

/-- Claim C6 (amended): `saveSite` dispatches `sites-updated` right after a
successful local write, `deleteSite` dispatches `sites-updated`, and
`performInitialLoad` dispatches both `sites-updated` and
`inspections-updated` after its merge; but `saveInspection` dispatches no
event on any path. -/
theorem c6_change_events_amended (storeS : List Site) (site0 : Site)
    (online configured cloudOk : Bool) (sid : String)
    (storeI : List InspectionLog) (insp0 : InspectionLog)
    (fw rw2 : Option JsError) (localSites : List Site)
    (localLogs : List InspectionLog) (cloudSites : Option (List SiteRow))
    (cloudLogs : Option (List LogRow)) :
    (saveSite storeS site0 none online configured cloudOk).events.head?
        = some "sites-updated"
    ∧ (deleteSite storeS sid).2 = ["sites-updated"]
    ∧ (performInitialLoadMerge localSites localLogs cloudSites
        cloudLogs).2.2 = ["sites-updated", "inspections-updated"]
    ∧ (saveInspection storeI insp0 fw rw2 online configured).events = [] := by
  refine ⟨?_, rfl, rfl, ?_⟩
  · by_cases h1 : (configured && online && cloudOk) = true
    · by_cases h2 : (upsertSite { site0 with synced := some false }
          storeS).any
          (fun s => s.id = ({ site0 with synced := some false} : Site).id)
          = true
      · simp [saveSite, h1, h2]
      · simp [saveSite, h1, h2]
    · simp [saveSite, h1]
  · cases fw with
    | none => rfl
    | some e =>
        by_cases hq : isQuotaError e = true
        · cases rw2 with
          | none => simp [saveInspection, hq]
          | some e2 => cases online <;> simp [saveInspection, hq]
        · simp [saveInspection, hq]

/-- Claim C7: when reconstructing an InspectionLog from a remote row, a
present non-empty `pdf_url` column overrides the payload's own `pdfUrl`;
when the column is absent the payload's `pdfUrl` is kept. -/
theorem c7_pdf_url_column_overrides (row : LogRow) :
    (∀ s, row.pdf_url = some s → ¬ s = "" →
      (formatCloudLog row).pdfUrl = some s)
    ∧ (row.pdf_url = none →
      (formatCloudLog row).pdfUrl = row.data.pdfUrl) := by
  constructor
  · intro s hs hne
    simp [formatCloudLog, jsOrStr, hs, strTruthy, hne]
  · intro h0
    simp [formatCloudLog, jsOrStr, h0, strTruthy]

/-- Witness for C7: a row whose `pdf_url` column is set overrides the stale
payload URL, and the same row with the column absent keeps the payload's. -/
theorem c7_pdf_url_column_overrides_witness :
    (formatCloudLog rowCloudLogL1).pdfUrl = some "https://cloud/reports/l1.pdf"
    ∧ (formatCloudLog { rowCloudLogL1 with pdf_url := none }).pdfUrl
        = some "https://stale/old.pdf" := by
  constructor
  · exact (c7_pdf_url_column_overrides rowCloudLogL1).1
      "https://cloud/reports/l1.pdf" rfl (by decide)
  · exact ((c7_pdf_url_column_overrides
      { rowCloudLogL1 with pdf_url := none }).2 rfl).trans (by decide)

/-- Claim C8: `saveDraft` followed by `getDraft` on the draft's site id
returns the saved draft; `deleteDraft` followed by `getDraft` returns
absent; and saving overwrites the single slot keyed by `siteId`, leaving
every other site's slot untouched — so a site has at most one outstanding
draft. -/
theorem c8_draft_round_trip (st : DraftStore) (d : InspectionDraft)
    (siteId k : String) :
    getDraft (saveDraft st d) d.siteId = some d
    ∧ getDraft (deleteDraft st siteId) siteId = none
    ∧ getDraft (saveDraft st d) k
        = (if k = d.siteId then some d else getDraft st k) := by
  refine ⟨?_, ?_, ?_⟩ <;> simp [getDraft, saveDraft, deleteDraft]

/-- Claim C9: `getSites` never returns a site with id `site-1`; when the
persisted array contains one, the returned list and the written-back
collection are the array pruned of every such record. -/
theorem c9_get_sites_prunes_demo (st : StoredSites) :
    ((getSites st).1.all (fun s => s.id ≠ "site-1") = true)
    ∧ (∀ l, st = .arr l →
        l.any (fun s => s.id = "site-1") = true →
        (getSites st).1 = l.filter (fun s => s.id ≠ "site-1")
        ∧ (getSites st).2 = .arr (l.filter (fun s => s.id ≠ "site-1"))) := by
  constructor
  · cases st with
    | absent => rfl
    | corrupt => rfl
    | nonArray => rfl
    | arr l =>
        simp only [getSites]
        split
        · rw [List.all_eq_true]
          intro x hx
          simp only at hx
          exact (List.mem_filter.mp hx).2
        · next h =>
            have h2 : ∀ x ∈ l, ¬ (x.id = "site-1") := by
              simpa [List.any_eq_true] using h
            rw [List.all_eq_true]
            intro x hx
            simp only at hx
            simpa using h2 x hx
  · intro l hl hany
    subst hl
    refine ⟨?_, ?_⟩ <;> simp [getSites, hany]

/-- Witness for C9 at a concrete stored collection containing the demo
site. -/
theorem c9_get_sites_prunes_demo_witness :
    (getSites (.arr [demoSite, pendingSiteS1])).1
        = [demoSite, pendingSiteS1].filter (fun s => s.id ≠ "site-1")
    ∧ (getSites (.arr [demoSite, pendingSiteS1])).2
        = .arr ([demoSite, pendingSiteS1].filter
            (fun s => s.id ≠ "site-1")) :=
  (c9_get_sites_prunes_demo (.arr [demoSite, pendingSiteS1])).2
    [demoSite, pendingSiteS1] rfl (by decide)

/-- Claim C10: when the local write fails with a non-quota error, the error
is swallowed: `saveInspection` leaves the stored collection unchanged,
surfaces no error to the caller, and emits no change event. -/
theorem c10_non_quota_error_swallowed (store : List InspectionLog)
    (insp0 : InspectionLog) (e : JsError) (retryW : Option JsError)
    (online configured : Bool) (hq : isQuotaError e = false) :
    (saveInspection store insp0 (some e) retryW online
        configured).inspections = store
    ∧ (saveInspection store insp0 (some e) retryW online
        configured).thrown = none
    ∧ (saveInspection store insp0 (some e) retryW online
        configured).events = [] := by
  refine ⟨?_, ?_, ?_⟩ <;> simp [saveInspection, hq]

/-- Witness for C10: a `TypeError` on the local write leaves the collection
unchanged with no thrown error and no events. -/
theorem c10_non_quota_error_swallowed_witness :
    (saveInspection [syncedLogA] logC (some otherErr) none true
        true).inspections = [syncedLogA]
    ∧ (saveInspection [syncedLogA] logC (some otherErr) none true
        true).thrown = none
    ∧ (saveInspection [syncedLogA] logC (some otherErr) none true
        true).events = [] :=
  c10_non_quota_error_swallowed [syncedLogA] logC otherErr none true true
    (by decide)

end ControlPreventivo
